import Mathlib

/-!
Verification of the query-to-artifact pipeline of the Inquiro research
assistant.  The backend source (`backend/main.py`, the handler `search`;
`backend/services/arxiv_client.py`, `fetch_arxiv_papers`;
`backend/services/citation.py`, `format_citations`) and the frontend graph
builder (`frontend/src/App.jsx`, `buildFlowElements`) are embedded as
executable Lean functions.  Network transport is outside the embedding: the
fetch stage receives the list of entry nodes parsed out of the feed document,
and the generative summarization service is an oracle argument.
-/

namespace Inquiro

/-- PyError models the runtime error raised by the Python code when an absent
element (`None`) has an attribute accessed on it; the field records the name
of the attribute that was accessed. -/
inductive PyError where
  | attributeError (attr : String)
deriving Repr, DecidableEq

deriving instance DecidableEq for Except

/-- Python whitespace as used by `.strip()`. -/
def pyWS (c : Char) : Bool :=
  c.isWhitespace || c = Char.ofNat 11 || c = Char.ofNat 12

/-- Python `.strip()`: drops whitespace from both ends of a string. -/
def pyStrip (s : String) : String :=
  ⟨(((s.data.dropWhile pyWS).reverse.dropWhile pyWS).reverse)⟩

/-- Python slicing `s[:n]`: the first `n` characters. -/
def pyTake (s : String) (n : Nat) : String := ⟨s.data.take n⟩

/-- Python `split(sep)` for a one-character separator: the list of segments
between occurrences of the separator; the empty string gives one empty
segment. -/
def splitSeg (c : Char) : List Char → List (List Char)
  | [] => [[]]
  | a :: as =>
    match splitSeg c as with
    | [] => [[]]
    | g :: gs => if a = c then [] :: g :: gs else (a :: g) :: gs

/-- Python `s.split("/")[-1]`: the segment after the final slash. -/
def lastSegment (s : String) : String :=
  ⟨(splitSeg (Char.ofNat 47) s.data).getLastD []⟩

/-- One `entry` node of the Atom feed document, as seen by the loop of
`fetch_arxiv_papers`: each field holds the text of the corresponding child
element when that element is present, `none` when it is absent.  The feed
format also carries a `link` element; it is listed here for completeness, the
parser never consults it. -/
structure RawEntry where
  id : Option String
  title : Option String
  summary : Option String
  published : Option String
  authors : List String
  link : Option String
deriving Repr, DecidableEq

/-- A normalized paper record as built by the entry loop of
`fetch_arxiv_papers` (all six keys are always set). -/
structure Paper where
  id : String
  title : String
  summary : String
  published : String
  authors : List String
  link : String
deriving Repr, DecidableEq

/-- Accessing `.text` on a child element: when the element is absent the
lookup returned `None` and the access raises an AttributeError. -/
def textOf (o : Option String) : Except PyError String :=
  match o with
  | some s => Except.ok s
  | none => Except.error (PyError.attributeError "text")

/-- One iteration of the entry loop of `fetch_arxiv_papers`: the author list
is collected first, then the dict literal reads `entry.id.text`,
`entry.title.text.strip()`, `entry.summary.text.strip()`,
`entry.published.text`, and reuses `entry.id.text` as the `link` value.  A
missing child element raises. -/
def parseEntry (e : RawEntry) : Except PyError Paper := do
  let authors := e.authors
  let i ← textOf e.id
  let t ← textOf e.title
  let s ← textOf e.summary
  let pub ← textOf e.published
  return { id := i, title := pyStrip t, summary := pyStrip s, published := pub,
           authors := authors, link := i }

/-- Left-to-right effectful map: the semantics of a Python loop that appends
one result per element, where an exception raised at any element aborts the
whole loop. -/
def mapExcept (f : α → Except PyError β) : List α → Except PyError (List β)
  | [] => Except.ok []
  | x :: xs => do
    let y ← f x
    let ys ← mapExcept f xs
    return y :: ys

/-- The parsing stage of `fetch_arxiv_papers`: the entry loop over the feed
document obtained from the HTTP response. -/
def fetch_arxiv_papers (entries : List RawEntry) : Except PyError (List Paper) :=
  mapExcept parseEntry entries

/-- A structured digest of one paper: bullet insights plus an optional
narrative. -/
structure Digest where
  bullets : List String
  narrative : Option String
deriving Repr, DecidableEq

/-- The empty Digest: the degraded form used when summarization fails. -/
def Digest.empty : Digest := { bullets := [], narrative := none }

/-- Map over a list together with the running index, starting at `k`.  Models
a JavaScript `forEach((x, i) => ...)` accumulation and the per-index loops of
the pipeline. -/
def mapWithIndexFrom (f : Nat → α → β) : Nat → List α → List β
  | _, [] => []
  | k, x :: xs => f k x :: mapWithIndexFrom f (k + 1) xs

/-- Modelled from the spec: the body of `backend/services/summarizer.py`
(`summarize_papers`) is absent from the source, which shows only a
placeholder line, so the function follows §4.2 of the spec: each Paper is
summarized independently; a failed call or unparseable reply degrades the
Digest of that paper to the empty form instead of aborting the batch, and the
output is positionally aligned with the input.  The external generative
service is the `oracle` argument, mapping a paper index and Paper to the
parsed Digest, or `none` when the call fails or its reply is unparseable. -/
def summarize_papers (oracle : Nat → Paper → Option Digest)
    (papers : List Paper) : List Digest :=
  mapWithIndexFrom (fun i p => (oracle i p).getD Digest.empty) 0 papers

/-- The pair of citation strings produced for one paper. -/
structure Citation where
  apa : String
  bibtex : String
deriving Repr, DecidableEq

/-- A Python dict holding a paper, as `format_citations` receives it: every
key may be absent. -/
structure PaperDict where
  id : Option String
  title : Option String
  summary : Option String
  published : Option String
  authors : Option (List String)
  link : Option String
deriving Repr, DecidableEq

/-- The dict of a Paper built by the feed parser: all keys present. -/
def Paper.toDict (p : Paper) : PaperDict :=
  { id := some p.id, title := some p.title, summary := some p.summary,
    published := some p.published, authors := some p.authors,
    link := some p.link }

/-- Rendering of `paper.get(k)` inside an f-string: `None` prints as the
four-letter string `None`. -/
def pyStr (o : Option String) : String := o.getD "None"

/-- Python `a or b` on strings: `a` when non-empty (truthy), else `b`. -/
def strOr (a b : String) : String := if a = "" then b else a

/-- The year computation of `format_citations`:
`paper.get("published","")[:4] or "n.d."`. -/
def citationYear (published : String) : String :=
  strOr (pyTake published 4) "n.d."

/-- The citation key of `format_citations`:
`paper.get("id").split("/")[-1]`; when `id` is absent the lookup returns
`None` and the `split` access raises an AttributeError. -/
def citationKey (o : Option String) : Except PyError String :=
  match o with
  | some s => Except.ok (lastSegment s)
  | none => Except.error (PyError.attributeError "split")

/-- The function `format_citations` of `backend/services/citation.py`: joins
the authors with a comma, derives the year, renders the APA-like line, then
the BibTeX entry keyed by the last path segment of the id. -/
def format_citations (paper : PaperDict) : Except PyError Citation := do
  let author_str := String.intercalate ", " (paper.authors.getD [])
  let year := citationYear (paper.published.getD "")
  let apa := author_str ++ " (" ++ year ++ "). " ++ pyStr paper.title
      ++ ". arXiv. " ++ pyStr paper.link
  let key ← citationKey paper.id
  let bibtex := "@article\x7b" ++ key ++ ",\n  title = \x7b" ++ pyStr paper.title
      ++ "\x7d,\n  author = \x7b" ++ author_str ++ "\x7d,\n  year = \x7b" ++ year
      ++ "\x7d,\n  howpublished = \x7barXiv:" ++ key ++ "\x7d,\n  url = \x7b"
      ++ pyStr paper.link ++ "\x7d\n\x7d"
  return { apa := apa, bibtex := bibtex }

/-- One value of the response dict built by the `/search` handler. -/
inductive BundleField where
  | papers (ps : List Paper)
  | summaries (ds : List Digest)
  | citations (cs : List Citation)
deriving Repr, DecidableEq

/-- The `/search` handler of `backend/main.py`: fetch the papers, summarize
them, format a citation for each paper, and return the dict literal with the
keys `papers`, `summaries`, `citations`, modelled as an association list in
literal order.  The feed document stands in for the HTTP fetch and the
oracle for the generative service; an exception raised by any stage
propagates out of the handler. -/
def search (oracle : Nat → Paper → Option Digest) (feed : List RawEntry) :
    Except PyError (List (String × BundleField)) := do
  let papers ← fetch_arxiv_papers feed
  let summaries := summarize_papers oracle papers
  let citations ← mapExcept (fun p => format_citations p.toDict) papers
  return [("papers", BundleField.papers papers),
          ("summaries", BundleField.summaries summaries),
          ("citations", BundleField.citations citations)]

/-- A 2D layout position of a graph node. -/
structure Position where
  x : Nat
  y : Nat
deriving Repr, DecidableEq

/-- A node pushed by `buildFlowElements`. -/
structure FlowNode where
  id : String
  label : String
  position : Position
deriving Repr, DecidableEq

/-- An edge pushed by `buildFlowElements`. -/
structure FlowEdge where
  id : String
  source : String
  target : String
deriving Repr, DecidableEq

/-- One element of the array returned by `buildFlowElements`. -/
inductive FlowElement where
  | node (n : FlowNode)
  | edge (e : FlowEdge)
deriving Repr, DecidableEq

/-- The node pushed for the paper at index `i`:
`id: "p"+i, label: p.title, position: (50, i*80)`. -/
def paperNode (i : Nat) (p : Paper) : FlowNode :=
  { id := "p" ++ toString i, label := p.title,
    position := { x := 50, y := i * 80 } }

/-- The node pushed for bullet `j` of the paper at index `i`:
`id: p{i}b{j}, label: b, position: (350, i*80 + j*20)`. -/
def bulletNode (i j : Nat) (b : String) : FlowNode :=
  { id := "p" ++ toString i ++ "b" ++ toString j, label := b,
    position := { x := 350, y := i * 80 + j * 20 } }

/-- The edge pushed for bullet `j` of the paper at index `i`:
`id: e-{i}-{j}`, from the paper node to the bullet node. -/
def bulletEdge (i j : Nat) : FlowEdge :=
  { id := "e-" ++ toString i ++ "-" ++ toString j,
    source := "p" ++ toString i,
    target := "p" ++ toString i ++ "b" ++ toString j }

/-- The bullet lookup of `buildFlowElements`:
`(results.summaries[i] && results.summaries[i].bullets) || []` — the bullets
of the digest at index `i`, or the empty array when that index is out of
range. -/
def bulletsAt (summaries : List Digest) (i : Nat) : List String :=
  match summaries.get? i with
  | some d => d.bullets
  | none => []

/-- The nodes pushed while visiting the paper at index `i`: its paper node
followed by one bullet node per bullet of its digest. -/
def paperNodes (summaries : List Digest) (i : Nat) (p : Paper) : List FlowNode :=
  paperNode i p :: mapWithIndexFrom (fun j b => bulletNode i j b) 0 (bulletsAt summaries i)

/-- The edges pushed while visiting the paper at index `i`: one per bullet of
its digest. -/
def paperEdges (summaries : List Digest) (i : Nat) : List FlowEdge :=
  mapWithIndexFrom (fun j _ => bulletEdge i j) 0 (bulletsAt summaries i)

/-- The function `buildFlowElements` of `frontend/src/App.jsx`: visits the
papers in order pushing nodes and edges, and returns all nodes in push order
followed by all edges. -/
def buildFlowElements (papers : List Paper) (summaries : List Digest) :
    List FlowElement :=
  (mapWithIndexFrom (fun i p => paperNodes summaries i p) 0 papers).flatten.map FlowElement.node
    ++ (mapWithIndexFrom (fun i _ => paperEdges summaries i) 0 papers).flatten.map FlowElement.edge


/-! Concrete inputs used by the closed checks below. -/

/-- A well-formed feed entry. -/
def entryA : RawEntry :=
  { id := some "http://arxiv.org/abs/2401.0001v1", title := some "Graph Neural Networks",
    summary := some "We study GNNs.", published := some "2024-01-05T00:00:00Z",
    authors := ["Ada Lovelace", "Alan Turing"], link := some "http://arxiv.org/abs/2401.0001v1" }

/-- The Paper parsed from `entryA`. -/
def paperA : Paper :=
  { id := "http://arxiv.org/abs/2401.0001v1", title := "Graph Neural Networks",
    summary := "We study GNNs.", published := "2024-01-05T00:00:00Z",
    authors := ["Ada Lovelace", "Alan Turing"], link := "http://arxiv.org/abs/2401.0001v1" }

/-- A feed entry carrying every element the parser reads, but no link
element. -/
def entryNoLink : RawEntry :=
  { id := some "http://arxiv.org/abs/2305.0042v1", title := some "Spectral Methods",
    summary := some "A survey.", published := some "2023-11-02T00:00:00Z",
    authors := ["Emmy Noether"], link := none }

/-- The Paper parsed from `entryNoLink`. -/
def paperB : Paper :=
  { id := "http://arxiv.org/abs/2305.0042v1", title := "Spectral Methods",
    summary := "A survey.", published := "2023-11-02T00:00:00Z",
    authors := ["Emmy Noether"], link := "http://arxiv.org/abs/2305.0042v1" }

/-- A feed entry missing its identifier element. -/
def entryNoId : RawEntry :=
  { id := none, title := some "Untitled", summary := some "Text.",
    published := some "2022", authors := [], link := some "http://example.org/x" }

/-- An oracle whose every summarization call fails. -/
def oracleNone : Nat → Paper → Option Digest := fun _ _ => none

/-- The citation formatted for `paperA`. -/
def citA : Citation :=
  { apa := "Ada Lovelace, Alan Turing (2024). Graph Neural Networks. arXiv. http://arxiv.org/abs/2401.0001v1",
    bibtex := "@article\x7b2401.0001v1,\n  title = \x7bGraph Neural Networks\x7d,\n  author = \x7bAda Lovelace, Alan Turing\x7d,\n  year = \x7b2024\x7d,\n  howpublished = \x7barXiv:2401.0001v1\x7d,\n  url = \x7bhttp://arxiv.org/abs/2401.0001v1\x7d\n\x7d" }

/-- The full response of `search` for the feed `[entryA]` under the failing
oracle. -/
def respA : List (String × BundleField) :=
  [("papers", BundleField.papers [paperA]),
   ("summaries", BundleField.summaries [Digest.empty]),
   ("citations", BundleField.citations [citA])]

/-- A dict whose published value does not start with four digits. -/
def paperNd : PaperDict :=
  { id := some "http://arxiv.org/abs/1", title := some "T", summary := none,
    published := some "Preprint of 2024", authors := some ["A"], link := some "L" }

/-- A dict with id present but no title and an empty author list. -/
def paperNoTitle : PaperDict :=
  { id := some "http://arxiv.org/abs/9", title := none, summary := none,
    published := some "2020", authors := some [], link := some "http://arxiv.org/abs/9" }

/-- A digest holding two bullets. -/
def digestB : Digest :=
  { bullets := ["first insight", "second insight"], narrative := none }

/-! Helper lemmas about the embedded pipeline. -/

theorem mapWithIndexFrom_length (f : Nat → α → β) (k : Nat) (xs : List α) :
    (mapWithIndexFrom f k xs).length = xs.length := by
  induction xs generalizing k with
  | nil => rfl
  | cons x xs ih => simp [mapWithIndexFrom, ih]

theorem mapWithIndexFrom_get? (f : Nat → α → β) (k i : Nat) (xs : List α) :
    (mapWithIndexFrom f k xs).get? i = (xs.get? i).map (f (k + i)) := by
  induction xs generalizing k i with
  | nil => simp [mapWithIndexFrom]
  | cons x xs ih =>
    cases i with
    | zero => simp [mapWithIndexFrom]
    | succ n =>
      simp only [mapWithIndexFrom, List.get?]
      rw [ih]
      have hkn : k + 1 + n = k + (n + 1) := by omega
      rw [hkn]

theorem mem_mapWithIndexFrom {f : Nat → α → β} {y : β} :
    ∀ {k : Nat} {xs : List α}, y ∈ mapWithIndexFrom f k xs →
      ∃ i x, xs.get? i = some x ∧ y = f (k + i) x := by
  intro k xs
  induction xs generalizing k with
  | nil => intro h; simp [mapWithIndexFrom] at h
  | cons x xs ih =>
    intro h
    rcases List.mem_cons.mp h with h0 | hmem
    · exact ⟨0, x, rfl, h0⟩
    · rcases ih hmem with ⟨i, z, hz, hy⟩
      exact ⟨i + 1, z, hz, by rw [hy]; congr 1; omega⟩

theorem mapExcept_ok_length {f : α → Except PyError β} :
    ∀ {xs : List α} {ys : List β}, mapExcept f xs = Except.ok ys → ys.length = xs.length := by
  intro xs
  induction xs with
  | nil => intro ys h; simp [mapExcept] at h; simp [← h]
  | cons x xs ih =>
    intro ys h
    simp only [mapExcept] at h
    cases hfx : f x with
    | error e => rw [hfx] at h; simp [Bind.bind, Except.bind] at h
    | ok y =>
      rw [hfx] at h
      cases hrec : mapExcept f xs with
      | error e => rw [hrec] at h; simp [Bind.bind, Except.bind] at h
      | ok zs =>
        rw [hrec] at h
        simp [Bind.bind, Except.bind, pure, Except.pure] at h
        rw [← h]
        simp [ih hrec]

theorem mapExcept_ok_get? {f : α → Except PyError β} :
    ∀ {xs : List α} {ys : List β}, mapExcept f xs = Except.ok ys →
      ∀ i x, xs.get? i = some x → ∃ y, ys.get? i = some y ∧ f x = Except.ok y := by
  intro xs
  induction xs with
  | nil => intro ys h i x hx; simp at hx
  | cons a xs ih =>
    intro ys h i x hx
    simp only [mapExcept] at h
    cases hfa : f a with
    | error e => rw [hfa] at h; simp [Bind.bind, Except.bind] at h
    | ok y =>
      rw [hfa] at h
      cases hrec : mapExcept f xs with
      | error e => rw [hrec] at h; simp [Bind.bind, Except.bind] at h
      | ok zs =>
        rw [hrec] at h
        simp [Bind.bind, Except.bind, pure, Except.pure] at h
        subst h
        cases i with
        | zero =>
          simp at hx
          subst hx
          exact ⟨y, rfl, hfa⟩
        | succ n =>
          simp only [List.get?] at hx ⊢
          exact ih hrec n x hx

theorem mapExcept_error_of_error {f : α → Except PyError β} {x : α} {err : PyError} :
    ∀ {xs : List α}, x ∈ xs → f x = Except.error err →
      ∃ e2, mapExcept f xs = Except.error e2 := by
  intro xs
  induction xs with
  | nil => intro hx; simp at hx
  | cons a xs ih =>
    intro hx hfx
    simp only [mapExcept]
    cases hfa : f a with
    | error e => exact ⟨e, by simp [Bind.bind, Except.bind]⟩
    | ok y =>
      rcases List.mem_cons.mp hx with rfl | hmem
      · rw [hfa] at hfx; cases hfx
      · rcases ih hmem hfx with ⟨e2, he2⟩
        exact ⟨e2, by simp [Bind.bind, Except.bind, he2]⟩

theorem mapExcept_ok_mem {f : α → Except PyError β} :
    ∀ {xs : List α} {ys : List β}, mapExcept f xs = Except.ok ys →
      ∀ y ∈ ys, ∃ x ∈ xs, f x = Except.ok y := by
  intro xs
  induction xs with
  | nil =>
    intro ys h y hy
    simp [mapExcept] at h
    subst h
    simp at hy
  | cons a xs ih =>
    intro ys h y hy
    simp only [mapExcept] at h
    cases hfa : f a with
    | error e => rw [hfa] at h; simp [Bind.bind, Except.bind] at h
    | ok z =>
      rw [hfa] at h
      cases hrec : mapExcept f xs with
      | error e => rw [hrec] at h; simp [Bind.bind, Except.bind] at h
      | ok zs =>
        rw [hrec] at h
        simp [Bind.bind, Except.bind, pure, Except.pure] at h
        subst h
        rcases List.mem_cons.mp hy with rfl | hmem
        · exact ⟨a, List.mem_cons_self a xs, hfa⟩
        · rcases ih hrec y hmem with ⟨x, hxmem, hfx⟩
          exact ⟨x, List.mem_cons_of_mem a hxmem, hfx⟩

theorem summarize_papers_length (oracle : Nat → Paper → Option Digest) (papers : List Paper) :
    (summarize_papers oracle papers).length = papers.length :=
  mapWithIndexFrom_length _ 0 papers

theorem summarize_papers_get? (oracle : Nat → Paper → Option Digest) (papers : List Paper)
    (i : Nat) :
    (summarize_papers oracle papers).get? i =
      (papers.get? i).map (fun p => (oracle i p).getD Digest.empty) := by
  have h := mapWithIndexFrom_get? (fun i p => (oracle i p).getD Digest.empty) 0 i papers
  simpa using h

theorem search_ok_elim {oracle : Nat → Paper → Option Digest} {feed : List RawEntry}
    {resp : List (String × BundleField)} (h : search oracle feed = Except.ok resp) :
    ∃ papers citations,
      fetch_arxiv_papers feed = Except.ok papers ∧
      mapExcept (fun p => format_citations p.toDict) papers = Except.ok citations ∧
      resp = [("papers", BundleField.papers papers),
              ("summaries", BundleField.summaries (summarize_papers oracle papers)),
              ("citations", BundleField.citations citations)] := by
  unfold search at h
  cases hf : fetch_arxiv_papers feed with
  | error e => rw [hf] at h; simp [Bind.bind, Except.bind] at h
  | ok papers =>
    rw [hf] at h
    have h2 : (mapExcept (fun p => format_citations p.toDict) papers).bind
        (fun citations => Except.ok
          [("papers", BundleField.papers papers),
           ("summaries", BundleField.summaries (summarize_papers oracle papers)),
           ("citations", BundleField.citations citations)]) = Except.ok resp := h
    cases hc : mapExcept (fun p => format_citations p.toDict) papers with
    | error e => rw [hc] at h2; simp [Except.bind] at h2
    | ok citations =>
      rw [hc] at h2
      simp [Except.bind] at h2
      exact ⟨papers, citations, rfl, hc, h2.symm⟩

theorem pyTake_ne_empty {s : String} (h : s ≠ "") : pyTake s 4 ≠ "" := by
  intro hc
  apply h
  have hnil : s.data.take 4 = [] := by
    have hd := congrArg String.data hc
    simpa [pyTake] using hd
  have hdata : s.data = [] := by
    cases hl : s.data with
    | nil => rfl
    | cons a l => rw [hl] at hnil; simp at hnil
  cases s with
  | mk d =>
    simp at hdata
    subst hdata
    rfl

/-- A successful format is fully characterized once the id is present. -/
theorem format_citations_ok (d : PaperDict) (i : String) (h : d.id = some i) :
    format_citations d = Except.ok
      { apa := String.intercalate ", " (d.authors.getD []) ++ " (" ++
          citationYear (d.published.getD "") ++ "). " ++ pyStr d.title ++
          ". arXiv. " ++ pyStr d.link,
        bibtex := "@article\x7b" ++ lastSegment i ++ ",\n  title = \x7b"
          ++ pyStr d.title ++ "\x7d,\n  author = \x7b"
          ++ String.intercalate ", " (d.authors.getD []) ++ "\x7d,\n  year = \x7b"
          ++ citationYear (d.published.getD "") ++ "\x7d,\n  howpublished = \x7barXiv:"
          ++ lastSegment i ++ "\x7d,\n  url = \x7b" ++ pyStr d.link
          ++ "\x7d\n\x7d" } := by
  unfold format_citations
  rw [h]
  rfl

/-- A parsed entry always has its identifier reused as its link. -/
theorem parseEntry_link_eq_id {e : RawEntry} {p : Paper}
    (h : parseEntry e = Except.ok p) : p.link = p.id := by
  unfold parseEntry at h
  cases hi : e.id with
  | none => rw [hi] at h; simp [textOf, Bind.bind, Except.bind] at h
  | some i =>
    rw [hi] at h
    cases ht : e.title with
    | none => rw [ht] at h; simp [textOf, Bind.bind, Except.bind] at h
    | some t =>
      rw [ht] at h
      cases hs : e.summary with
      | none => rw [hs] at h; simp [textOf, Bind.bind, Except.bind] at h
      | some s =>
        rw [hs] at h
        cases hpub : e.published with
        | none => rw [hpub] at h; simp [textOf, Bind.bind, Except.bind] at h
        | some pub =>
          rw [hpub] at h
          simp [textOf, Bind.bind, Except.bind, pure, Except.pure] at h
          rw [← h]

/-- A successful search from given fetch and format results. -/
theorem search_ok_of (oracle : Nat → Paper → Option Digest) {feed : List RawEntry}
    {papers : List Paper} {cits : List Citation}
    (hf : fetch_arxiv_papers feed = Except.ok papers)
    (hc : mapExcept (fun p => format_citations p.toDict) papers = Except.ok cits) :
    search oracle feed = Except.ok
      [("papers", BundleField.papers papers),
       ("summaries", BundleField.summaries (summarize_papers oracle papers)),
       ("citations", BundleField.citations cits)] := by
  unfold search
  rw [hf]
  show (mapExcept (fun p => format_citations p.toDict) papers).bind
      (fun citations => Except.ok
        [("papers", BundleField.papers papers),
         ("summaries", BundleField.summaries (summarize_papers oracle papers)),
         ("citations", BundleField.citations citations)]) = _
  rw [hc]
  rfl

/-- Search succeeds exactly when the fetch and the citation loop succeed; the
oracle plays no part in success. -/
theorem search_ok_iff (oracle : Nat → Paper → Option Digest) (feed : List RawEntry) :
    (∃ resp, search oracle feed = Except.ok resp) ↔
      (∃ papers, fetch_arxiv_papers feed = Except.ok papers ∧
        ∃ cits, mapExcept (fun p => format_citations p.toDict) papers = Except.ok cits) := by
  constructor
  · intro ⟨resp, h⟩
    rcases search_ok_elim h with ⟨papers, cits, hf, hc, hresp⟩
    exact ⟨papers, hf, cits, hc⟩
  · intro ⟨papers, hf, cits, hc⟩
    exact ⟨_, search_ok_of oracle hf hc⟩

/-- Bullet rows depend only on the bullet lists of the digests. -/
theorem bulletsAt_congr {summaries summaries2 : List Digest}
    (h : summaries.map Digest.bullets = summaries2.map Digest.bullets) (i : Nat) :
    bulletsAt summaries i = bulletsAt summaries2 i := by
  have h1 : (summaries.get? i).map Digest.bullets
      = (summaries2.get? i).map Digest.bullets := by
    rw [← List.get?_map, ← List.get?_map, h]
  unfold bulletsAt
  cases hs : summaries.get? i with
  | none =>
    rw [hs] at h1
    cases hs2 : summaries2.get? i with
    | none => rfl
    | some d2 => rw [hs2] at h1; simp at h1
  | some d =>
    rw [hs] at h1
    cases hs2 : summaries2.get? i with
    | none => rw [hs2] at h1; simp at h1
    | some d2 => rw [hs2] at h1; simp at h1; exact h1

/-- The per-paper node rows depend only on titles and bullets. -/
theorem nodes_rows_congr {summaries summaries2 : List Digest}
    (hb : summaries.map Digest.bullets = summaries2.map Digest.bullets) :
    ∀ {papers papers2 : List Paper}, papers.map Paper.title = papers2.map Paper.title →
      ∀ k, mapWithIndexFrom (fun i p => paperNodes summaries i p) k papers
        = mapWithIndexFrom (fun i p => paperNodes summaries2 i p) k papers2 := by
  intro papers
  induction papers with
  | nil =>
    intro papers2 ht k
    cases papers2 with
    | nil => rfl
    | cons q qs => simp at ht
  | cons p ps ih =>
    intro papers2 ht k
    cases papers2 with
    | nil => simp at ht
    | cons q qs =>
      simp at ht
      obtain ⟨hpq, hps⟩ := ht
      simp only [mapWithIndexFrom]
      rw [ih hps (k + 1)]
      have hrow : paperNodes summaries k p = paperNodes summaries2 k q := by
        unfold paperNodes paperNode
        rw [bulletsAt_congr hb k, hpq]
      rw [hrow]

/-- The per-paper edge rows depend only on bullets and the paper count. -/
theorem edges_rows_congr {summaries summaries2 : List Digest}
    (hb : summaries.map Digest.bullets = summaries2.map Digest.bullets) :
    ∀ {papers papers2 : List Paper}, papers.length = papers2.length →
      ∀ k, mapWithIndexFrom (fun i _ => paperEdges summaries i) k papers
        = mapWithIndexFrom (fun i _ => paperEdges summaries2 i) k papers2 := by
  intro papers
  induction papers with
  | nil =>
    intro papers2 ht k
    cases papers2 with
    | nil => rfl
    | cons q qs => simp at ht
  | cons p ps ih =>
    intro papers2 ht k
    cases papers2 with
    | nil => simp at ht
    | cons q qs =>
      simp at ht
      simp only [mapWithIndexFrom]
      rw [ih ht (k + 1)]
      have hrow : paperEdges summaries k = paperEdges summaries2 k := by
        unfold paperEdges
        rw [bulletsAt_congr hb k]
      rw [hrow]

/-- The whole build depends only on the titles and the bullet lists. -/
theorem buildFlowElements_congr {papers papers2 : List Paper}
    {summaries summaries2 : List Digest}
    (ht : papers.map Paper.title = papers2.map Paper.title)
    (hb : summaries.map Digest.bullets = summaries2.map Digest.bullets) :
    buildFlowElements papers summaries = buildFlowElements papers2 summaries2 := by
  have hlen : papers.length = papers2.length := by
    have := congrArg List.length ht
    simpa using this
  unfold buildFlowElements
  rw [nodes_rows_congr hb ht 0, edges_rows_congr hb hlen 0]

/-! The claims. -/

/-- C1: for every successful search, the three output sequences papers,
summaries and citations have equal length, and for every index i the digest
at i is derived from the paper at i and the citation at i is the formatting
of the paper at i — positional alignment across the parallel sequences. -/
theorem search_alignment (oracle : Nat → Paper → Option Digest) (feed : List RawEntry)
    (resp : List (String × BundleField)) (h : search oracle feed = Except.ok resp) :
    ∃ papers summaries citations,
      resp = [("papers", BundleField.papers papers),
              ("summaries", BundleField.summaries summaries),
              ("citations", BundleField.citations citations)] ∧
      summaries.length = papers.length ∧
      citations.length = papers.length ∧
      ∀ i p, papers.get? i = some p →
        summaries.get? i = some ((oracle i p).getD Digest.empty) ∧
        ∃ c, citations.get? i = some c ∧ format_citations p.toDict = Except.ok c := by
  rcases search_ok_elim h with ⟨papers, citations, hf, hc, hresp⟩
  refine ⟨papers, summarize_papers oracle papers, citations, hresp,
    summarize_papers_length oracle papers, mapExcept_ok_length hc, ?_⟩
  intro i p hp
  constructor
  · rw [summarize_papers_get? oracle papers i, hp]
    rfl
  · exact mapExcept_ok_get? hc i p hp

set_option maxRecDepth 8192 in
/-- Witness for C1: the alignment at a concrete feed of one entry under an
oracle whose calls all fail. -/
theorem search_alignment_witness :
    ∃ papers summaries citations,
      respA = [("papers", BundleField.papers papers),
              ("summaries", BundleField.summaries summaries),
              ("citations", BundleField.citations citations)] ∧
      summaries.length = papers.length ∧
      citations.length = papers.length ∧
      ∀ i p, papers.get? i = some p →
        summaries.get? i = some ((oracleNone i p).getD Digest.empty) ∧
        ∃ c, citations.get? i = some c ∧ format_citations p.toDict = Except.ok c :=
  search_alignment oracleNone [entryA] respA (by decide)

/-- C2 counterexample: a concrete successful search returns the dict whose
keys are papers, summaries, citations only — graph is not among them. -/
theorem search_no_graph_cex :
    (search oracleNone [entryA]).toOption.map (fun resp => resp.map Prod.fst) =
      some ["papers", "summaries", "citations"] ∧
    "graph" ∉ ["papers", "summaries", "citations"] :=
  ⟨by decide, by decide⟩

/-- C2 (amended): run returns a bundle with exactly the three fields papers,
summaries and citations, in that order; the response carries no graph field
(the graph is derived from the bundle by the presentation layer). -/
theorem search_bundle_keys (oracle : Nat → Paper → Option Digest) (feed : List RawEntry)
    (resp : List (String × BundleField)) (h : search oracle feed = Except.ok resp) :
    resp.map Prod.fst = ["papers", "summaries", "citations"] ∧
    resp.lookup "graph" = none := by
  rcases search_ok_elim h with ⟨papers, citations, hf, hc, hresp⟩
  subst hresp
  exact ⟨rfl, rfl⟩

set_option maxRecDepth 8192 in
/-- Witness for C2 at the concrete one-entry feed. -/
theorem search_bundle_keys_witness :
    respA.map Prod.fst = ["papers", "summaries", "citations"] ∧
    respA.lookup "graph" = none :=
  search_bundle_keys oracleNone [entryA] respA (by decide)

/-- C3 counterexample: for published beginning "Prep" — not a 4-digit token —
the rendered year is "Prep", not the claimed "n.d.". -/
theorem citation_year_cex :
    (format_citations paperNd).toOption.map Citation.apa = some "A (Prep). T. arXiv. L" ∧
    "Prep" ≠ "n.d." :=
  ⟨rfl, by decide⟩

/-- C3 (amended): the year rendered into the citation is the first four
characters of published whenever published is present and non-empty, whether
or not those characters are digits; the literal "n.d." appears exactly when
published is absent or the empty string. -/
theorem citation_year_amended (d : PaperDict) (i : String) (h : d.id = some i) :
    ∃ c, format_citations d = Except.ok c ∧
      c.apa = String.intercalate ", " (d.authors.getD []) ++ " (" ++
        citationYear (d.published.getD "") ++ "). " ++ pyStr d.title ++
        ". arXiv. " ++ pyStr d.link ∧
      (d.published.getD "" = "" → citationYear (d.published.getD "") = "n.d.") ∧
      (d.published.getD "" ≠ "" →
        citationYear (d.published.getD "") = pyTake (d.published.getD "") 4) := by
  refine ⟨_, format_citations_ok d i h, rfl, ?_, ?_⟩
  · intro hp
    rw [hp]
    rfl
  · intro hp
    unfold citationYear strOr
    rw [if_neg (pyTake_ne_empty hp)]

/-- Witness for C3 at the concrete dict `paperNd`. -/
theorem citation_year_amended_witness :
    ∃ c, format_citations paperNd = Except.ok c ∧
      c.apa = String.intercalate ", " (paperNd.authors.getD []) ++ " (" ++
        citationYear (paperNd.published.getD "") ++ "). " ++ pyStr paperNd.title ++
        ". arXiv. " ++ pyStr paperNd.link ∧
      (paperNd.published.getD "" = "" → citationYear (paperNd.published.getD "") = "n.d.") ∧
      (paperNd.published.getD "" ≠ "" →
        citationYear (paperNd.published.getD "") = pyTake (paperNd.published.getD "") 4) :=
  citation_year_amended paperNd "http://arxiv.org/abs/1" rfl

/-- C4 counterexample: the entry with no link element is not skipped — it is
parsed and returned (with the identifier reused as its link) — and a feed of
one well-formed entry followed by one entry missing its identifier does not
return the well-formed entry: the whole fetch fails. -/
theorem fetch_skip_cex :
    fetch_arxiv_papers [entryNoLink] = Except.ok [paperB] ∧
    fetch_arxiv_papers [entryNoLink, entryNoId] =
      Except.error (PyError.attributeError "text") :=
  ⟨rfl, rfl⟩

/-- C4 (amended): the feed parser never skips an entry.  An entry whose
identifier, title, summary and published elements are present parses to a
Paper that is returned even when its link element is absent — the identifier
is reused as the link — and whenever any entry lacks its identifier the whole
fetch fails with an error, so the remaining well-formed entries are not
returned. -/
theorem fetch_malformed_amended :
    (∀ (e : RawEntry) i t s pub, e.id = some i → e.title = some t →
        e.summary = some s → e.published = some pub →
        parseEntry e = Except.ok
          { id := i, title := pyStrip t, summary := pyStrip s,
            published := pub, authors := e.authors, link := i }) ∧
    (∀ entries : List RawEntry, (∃ e ∈ entries, e.id = none) →
        ∃ err, fetch_arxiv_papers entries = Except.error err) := by
  constructor
  · intro e i t s pub hi ht hs hp
    unfold parseEntry
    rw [hi, ht, hs, hp]
    rfl
  · rintro entries ⟨e, he, hid⟩
    have hpe : parseEntry e = Except.error (PyError.attributeError "text") := by
      unfold parseEntry
      rw [hid]
      rfl
    exact mapExcept_error_of_error he hpe

/-- C5 counterexample: a dict with id present but no title does not fail:
formatting succeeds and renders the absent title as the string None. -/
theorem format_missing_title_cex :
    (format_citations paperNoTitle).toOption.map Citation.apa =
      some " (2020). None. arXiv. http://arxiv.org/abs/9" := rfl

/-- C5 (amended): the citation formatter fails only on a missing id: every
dict with id present succeeds — a missing title does not fail, it is rendered
as the string None — and one with id absent fails with the attribute error of
splitting None, and with no other kind of error. -/
theorem format_failure_amended (d : PaperDict) :
    (d.id.isSome = true → ∃ c, format_citations d = Except.ok c) ∧
    (d.id = none → format_citations d = Except.error (PyError.attributeError "split")) := by
  constructor
  · intro hd
    rcases Option.isSome_iff_exists.mp hd with ⟨i, hi⟩
    exact ⟨_, format_citations_ok d i hi⟩
  · intro hd
    unfold format_citations
    rw [hd]
    rfl

/-- C6: for the paper at index i whose digest has b bullets, the builder
contributes exactly one paper node plus b bullet nodes and exactly b edges,
each edge directed from that paper node to one of its bullet nodes, and every
one of those nodes and edges appears in the built element array; an empty
digest contributes exactly the paper node and no edges, and the builder is a
total function — never an error. -/
theorem graph_shape (papers : List Paper) (summaries : List Digest) (i : Nat) (p : Paper)
    (hp : papers.get? i = some p) :
    (paperNodes summaries i p).length = 1 + (bulletsAt summaries i).length ∧
    (paperEdges summaries i).length = (bulletsAt summaries i).length ∧
    (∀ e ∈ paperEdges summaries i, e.source = (paperNode i p).id ∧
      ∃ j b, (bulletsAt summaries i).get? j = some b ∧ e.target = (bulletNode i j b).id) ∧
    (∀ n ∈ paperNodes summaries i p, FlowElement.node n ∈ buildFlowElements papers summaries) ∧
    (∀ e ∈ paperEdges summaries i, FlowElement.edge e ∈ buildFlowElements papers summaries) ∧
    (bulletsAt summaries i = [] →
      paperNodes summaries i p = [paperNode i p] ∧ paperEdges summaries i = []) := by
  have hnrow : (mapWithIndexFrom (fun i p => paperNodes summaries i p) 0 papers).get? i
      = some (paperNodes summaries i p) := by
    rw [mapWithIndexFrom_get?, hp]
    simp
  have herow : (mapWithIndexFrom (fun i _ => paperEdges summaries i) 0 papers).get? i
      = some (paperEdges summaries i) := by
    rw [mapWithIndexFrom_get?, hp]
    simp
  refine ⟨?_, ?_, ?_, ?_, ?_, ?_⟩
  · simp only [paperNodes, List.length_cons, mapWithIndexFrom_length]
    omega
  · simp only [paperEdges, mapWithIndexFrom_length]
  · intro e he
    rcases mem_mapWithIndexFrom he with ⟨j, b, hjb, hedef⟩
    subst hedef
    refine ⟨rfl, 0 + j, b, ?_, rfl⟩
    simpa using hjb
  · intro n hn
    exact List.mem_append_left _
      (List.mem_map_of_mem FlowElement.node
        (List.mem_flatten_of_mem (List.get?_mem hnrow) hn))
  · intro e he
    exact List.mem_append_right _
      (List.mem_map_of_mem FlowElement.edge
        (List.mem_flatten_of_mem (List.get?_mem herow) he))
  · intro hemp
    constructor
    · rw [paperNodes, hemp]
      rfl
    · rw [paperEdges, hemp]
      rfl

/-- Witness for C6 at one paper with a two-bullet digest. -/
theorem graph_shape_witness :
    (paperNodes [digestB] 0 paperA).length = 1 + (bulletsAt [digestB] 0).length :=
  (graph_shape [paperA] [digestB] 0 paperA rfl).1

/-- C7: for every Paper the apa string is exactly the authors joined by
comma-space in original byline order, then the year in parentheses, the
title, the provider arXiv, and the link, with exactly this order and
punctuation; an empty author list yields an empty author segment, not a
placeholder, and no failure. -/
theorem apa_format (p : Paper) :
    ∃ c, format_citations p.toDict = Except.ok c ∧
      c.apa = String.intercalate ", " p.authors ++ " (" ++ citationYear p.published ++
        "). " ++ p.title ++ ". arXiv. " ++ p.link ∧
      (p.authors = [] → c.apa = "" ++ " (" ++ citationYear p.published ++ "). " ++
        p.title ++ ". arXiv. " ++ p.link) := by
  refine ⟨_, format_citations_ok p.toDict p.id rfl, rfl, ?_⟩
  intro ha
  simp only [Paper.toDict, Option.getD_some, pyStr, ha]
  rfl

/-- C8: per-paper isolation of summarization failures: when the call for the
paper at index k fails, the digest at k is the empty Digest, every other
index keeps the digest derived from its own paper, the output length equals
the input length, and the overall search succeeds or fails independently of
the summarization oracle — one failing summarization never aborts the batch
nor surfaces to the caller. -/
theorem summarize_isolation (oracle : Nat → Paper → Option Digest) (papers : List Paper)
    (k : Nat) (pk : Paper) (hk : papers.get? k = some pk) (hfail : oracle k pk = none) :
    (summarize_papers oracle papers).length = papers.length ∧
    (summarize_papers oracle papers).get? k = some Digest.empty ∧
    (∀ i p, i ≠ k → papers.get? i = some p →
      (summarize_papers oracle papers).get? i = some ((oracle i p).getD Digest.empty)) ∧
    ∀ oracle2 : Nat → Paper → Option Digest, ∀ feed : List RawEntry,
      ((∃ resp, search oracle feed = Except.ok resp) ↔
        (∃ resp, search oracle2 feed = Except.ok resp)) := by
  refine ⟨summarize_papers_length oracle papers, ?_, ?_, ?_⟩
  · rw [summarize_papers_get? oracle papers k, hk]
    simp [hfail]
  · intro i p hik hp
    rw [summarize_papers_get? oracle papers i, hp]
    rfl
  · intro oracle2 feed
    rw [search_ok_iff oracle feed, search_ok_iff oracle2 feed]

/-- Witness for C8: the failing oracle over a one-paper list. -/
theorem summarize_isolation_witness :
    (summarize_papers oracleNone [paperA]).get? 0 = some Digest.empty :=
  (summarize_isolation oracleNone [paperA] 0 paperA rfl rfl).2.1

/-- C9: graph building is deterministic: node identifiers are composite keys
of the indices alone, layout positions are functions of the indices alone
with no randomness (labels and all other paper or digest data play no part in
either), and the whole build depends only on the paper titles and the digest
bullet lists — two builds over identical papers and digests produce identical
graphs. -/
theorem graph_deterministic (i j : Nat) (p q : Paper) (b c : String) :
    (paperNode i p).id = "p" ++ toString i ∧
    (paperNode i p).position = { x := 50, y := i * 80 } ∧
    (bulletNode i j b).id = "p" ++ toString i ++ "b" ++ toString j ∧
    (bulletNode i j b).position = { x := 350, y := i * 80 + j * 20 } ∧
    (paperNode i p).id = (paperNode i q).id ∧
    (paperNode i p).position = (paperNode i q).position ∧
    (bulletNode i j b).id = (bulletNode i j c).id ∧
    (bulletNode i j b).position = (bulletNode i j c).position ∧
    bulletEdge i j =
      { id := "e-" ++ toString i ++ "-" ++ toString j,
        source := (paperNode i p).id, target := (bulletNode i j b).id } ∧
    ∀ (papers papers2 : List Paper) (summaries summaries2 : List Digest),
      papers.map Paper.title = papers2.map Paper.title →
      summaries.map Digest.bullets = summaries2.map Digest.bullets →
      buildFlowElements papers summaries = buildFlowElements papers2 summaries2 := by
  refine ⟨rfl, rfl, rfl, rfl, rfl, rfl, rfl, rfl, rfl, ?_⟩
  intro papers papers2 summaries summaries2 ht hb
  exact buildFlowElements_congr ht hb

/-- C10: every Paper record produced by the feed parser has its link field
equal to its id field: the entry identifier is reused verbatim as the
canonical link of every returned entry, not only when a separate link is
absent. -/
theorem fetch_link_eq_id (entries : List RawEntry) (ps : List Paper)
    (h : fetch_arxiv_papers entries = Except.ok ps) :
    ∀ p ∈ ps, p.link = p.id := by
  intro p hp
  rcases mapExcept_ok_mem h p hp with ⟨e, hmem, hpe⟩
  exact parseEntry_link_eq_id hpe

/-- Witness for C10 at the entry carrying no link element. -/
theorem fetch_link_eq_id_witness : paperB.link = paperB.id :=
  fetch_link_eq_id [entryNoLink] [paperB] (by decide) paperB (by simp)

end Inquiro
